import Mathlib

/-!
Shallow embedding of `src/src/App.tsx` (tedhn/crypto-table).

The component is a single React function component.  We embed:
  * the coin record type (`CoinType`),
  * the component state (`AppState`) with its initial values,
  * the fetch effect (lines 56-72) as an action trace plus a state fold,
  * the filter effect (lines 74-81) and the table `dataSource` expression,
  * the dropdown handlers `handleCurrencyChange` / `handleSortOrder`,
  * the price column `onFilter` range-bucket predicate and its `filters` list,
  * the sparkline `Line` stroke-color expression (lines 204-216).

JavaScript string/number primitives used by the code are modelled by
structurally recursive Lean functions on `List Char`:
`split` (as used with the separators " " and " - "), `toLowerCase`
(ASCII lowering, `Char.toLower`, which agrees with JS on all data the
component manipulates), `includes` (substring containment), and
`Number(·)` on the digit-only strings the bucket filters pass to it
(any other string is treated as NaN, i.e. `none`; numeric comparisons
with NaN are `false`, as in JS).  Prices are modelled as rationals.
-/

/-- Helper for the substring and split models: the first list is an
initial segment of the second. -/
def isPrefixCL : List Char → List Char → Bool
  | [], _ => true
  | _ :: _, [] => false
  | a :: as, b :: bs => a == b && isPrefixCL as bs

/-- JS `String.prototype.includes`: `needle` occurs contiguously in `hay`. -/
def containsCL (needle : List Char) : List Char → Bool
  | [] => isPrefixCL needle []
  | c :: rest => isPrefixCL needle (c :: rest) || containsCL needle rest

/-- Fuel-indexed worker for `splitCL`; the fuel is an upper bound on the
length of the list being split, so it never runs out on the initial call. -/
def splitCLFuel (sep : List Char) : Nat → List Char → List (List Char)
  | _, [] => [[]]
  | 0, l => [l]
  | fuel + 1, c :: rest =>
    if isPrefixCL sep (c :: rest) then
      [] :: splitCLFuel sep fuel (List.drop (sep.length - 1) rest)
    else
      match splitCLFuel sep fuel rest with
      | [] => [[c]]
      | h :: t => (c :: h) :: t

/-- JS `String.prototype.split` with a non-empty separator string,
on char lists (leftmost-first, non-overlapping matches). -/
def splitCL (sep l : List Char) : List (List Char) :=
  splitCLFuel sep l.length l

/-- JS `String.prototype.toLowerCase` (ASCII range, via `Char.toLower`). -/
def toLowerStr (s : String) : String :=
  ⟨s.data.map Char.toLower⟩

/-- JS `a.includes(b)` on strings. -/
def jsIncludes (s sub : String) : Bool :=
  containsCL sub.data s.data

/-- Decimal value of a digit string. -/
def natOfDigits (s : List Char) : ℕ :=
  s.foldl (fun a c => a * 10 + (c.toNat - 48)) 0

/-- JS `Number(s)` for the strings the bucket filter feeds it: digit-only
strings get their decimal value, `""` is `0`, anything else is NaN (`none`). -/
def jsNumberCL (s : List Char) : Option ℚ :=
  if s.isEmpty then some 0
  else if s.all Char.isDigit then some ((natOfDigits s : ℕ) : ℚ)
  else none

/-- JS `x >= n` where `n` may be NaN (`none`): NaN comparisons are false. -/
def geNum (x : ℚ) : Option ℚ → Bool
  | none => false
  | some m => decide (m ≤ x)

/-- JS `x <= n` where `n` may be NaN (`none`): NaN comparisons are false. -/
def leNum (x : ℚ) : Option ℚ → Bool
  | none => false
  | some m => decide (x ≤ m)

/-- JS `a > b` on two possibly-undefined array reads (`undefined`/NaN
compares false, so an out-of-bounds read makes the comparison false). -/
def gtOpt : Option ℚ → Option ℚ → Bool
  | some a, some b => decide (b < a)
  | _, _ => false

/-- `interface CoinType` (App.tsx lines 26-34); `sparkline_in_7d.price` is
inlined as the price list, and numbers are rationals. -/
structure CoinType where
  name : String
  image : String
  current_price : ℚ
  circulating_supply : ℚ
  sparkline_price : List ℚ
deriving DecidableEq

/-- One entry of an antd dropdown menu (`MenuProps.items`). -/
structure MenuItem where
  key : String
  label : String
deriving DecidableEq

/-- `currencyItems` (App.tsx lines 16-19). -/
def currencyItems : List MenuItem :=
  [⟨"USD $", "USD"⟩, ⟨"EUR €", "EUR"⟩]

/-- `sortOrderItems` (App.tsx lines 21-24). -/
def sortOrderItems : List MenuItem :=
  [⟨"market_cap_desc", "Market Cap Decending"⟩,
   ⟨"market_cap_asc", "Market Cap Ascending"⟩]

/-- The `currency` state object `{label, symbol}`. -/
structure Currency where
  label : String
  symbol : String
deriving DecidableEq

/-- The `sortOrder` state object `{label, key}`. -/
structure SortOrder where
  label : String
  key : String
deriving DecidableEq

/-- The `pagination` state object `{totalCount, pageSize, current}`. -/
structure Pagination where
  totalCount : ℕ
  pageSize : ℕ
  current : ℕ
deriving DecidableEq

/-- The full component state: the six `useState` hooks of `App`. -/
structure AppState where
  currency : Currency
  sortOrder : SortOrder
  pagination : Pagination
  data : List CoinType
  filterQuery : String
  filteredData : List CoinType
  isLoading : Bool
deriving DecidableEq

/-- The initial state (App.tsx lines 36-53). -/
def initState : AppState where
  currency := ⟨"USD", "$"⟩
  sortOrder := ⟨"Market Cap Decending", "market_cap_desc"⟩
  pagination := ⟨10000, 10, 1⟩
  data := []
  filterQuery := ""
  filteredData := []
  isLoading := false

/-- JS truthiness of a string: non-empty. -/
def jsTruthy (s : String) : Bool := !s.isEmpty

/-- The filter predicate of the filter effect (App.tsx line 76-78):
`coin.name.toLowerCase().includes(filterQuery.toLowerCase())`. -/
def coinMatches (q : String) (coin : CoinType) : Bool :=
  jsIncludes (toLowerStr coin.name) (toLowerStr q)

/-- `data.filter(coin => coin.name.toLowerCase().includes(q.toLowerCase()))`. -/
def filterCoins (data : List CoinType) (q : String) : List CoinType :=
  data.filter (coinMatches q)

/-- The filter `useEffect` (App.tsx lines 74-81): recompute `filteredData`
only when `filterQuery` is truthy. -/
def filterEffect (st : AppState) : AppState :=
  if jsTruthy st.filterQuery then
    { st with filteredData := filterCoins st.data st.filterQuery }
  else st

/-- `setFilterQuery` from the search input `onChange` (App.tsx line 267). -/
def setFilterQuery (st : AppState) (q : String) : AppState :=
  { st with filterQuery := q }

/-- The `Table` `dataSource` expression (App.tsx line 273):
`filterQuery ? filteredData : data`. -/
def dataSource (st : AppState) : List CoinType :=
  if jsTruthy st.filterQuery then st.filteredData else st.data

/-- `handleCurrencyChange` (App.tsx lines 84-88): splits the menu key on a
space into label and symbol, resets the page to 1, stores the currency.
A missing second component (JS `undefined`) is modelled as `""`. -/
def handleCurrencyChange (st : AppState) (key : String) : AppState :=
  let parts := splitCL [' '] key.data
  let label : String := ⟨parts.headD []⟩
  let symbol : String := ⟨(parts.drop 1).headD []⟩
  { st with
    pagination := { st.pagination with current := 1 }
    currency := ⟨label, symbol⟩ }

/-- `handleSortOrder` (App.tsx lines 91-102): a switch over the menu key;
an unknown key falls through and changes nothing. -/
def handleSortOrder (st : AppState) (key : String) : AppState :=
  if key = "market_cap_desc" then
    { st with
      pagination := { st.pagination with current := 1 }
      sortOrder := ⟨"Market Cap Decending", "market_cap_desc"⟩ }
  else if key = "market_cap_asc" then
    { st with
      pagination := { st.pagination with current := 1 }
      sortOrder := ⟨"Market Cap Ascending", "market_cap_asc"⟩ }
  else st

/-- The pagination `onChange` callback (App.tsx lines 279-281). -/
def paginationOnChange (st : AppState) (current size : ℕ) : AppState :=
  { st with pagination := { st.pagination with current := current, pageSize := size } }

/-- The request URL built by the fetch effect (App.tsx lines 60-64). -/
def buildUrl (st : AppState) : String :=
  "https://api.coingecko.com/api/v3/coins/markets?vs_currency="
    ++ toLowerStr st.currency.label
    ++ "&order=" ++ toLowerStr st.sortOrder.key
    ++ "&per_page=" ++ toString st.pagination.pageSize
    ++ "&page=" ++ toString st.pagination.current
    ++ "&sparkline=true"

/-- Outcome of the awaited `axios.get`: the resolved payload, or a rejection. -/
inductive FetchResult where
  | success (coins : List CoinType)
  | failure
deriving DecidableEq

/-- One observable step the fetch effect performs. -/
inductive EffectStep where
  | setLoading (b : Bool)
  | setDataAct (coins : List CoinType)
  | toastError (msg : String)
  | request (url : String)
deriving DecidableEq

/-- The fetch `useEffect` body (App.tsx lines 56-72) as the ordered trace of
its observable steps: set loading, issue the one GET, then either store the
payload (success) or toast (failure), then clear loading. -/
def fetchEffectTrace (st : AppState) (res : FetchResult) : List EffectStep :=
  [EffectStep.setLoading true, EffectStep.request (buildUrl st)]
    ++ (match res with
        | FetchResult.success coins => [EffectStep.setDataAct coins]
        | FetchResult.failure => [EffectStep.toastError "Failed to fetch data, try again later"])
    ++ [EffectStep.setLoading false]

/-- Effect of one action on the component state (toasts and requests do not
touch the state). -/
def applyAction (st : AppState) : EffectStep → AppState
  | EffectStep.setLoading b => { st with isLoading := b }
  | EffectStep.setDataAct coins => { st with data := coins }
  | EffectStep.toastError _ => st
  | EffectStep.request _ => st

/-- The state after the fetch effect runs to completion with outcome `res`. -/
def runFetch (st : AppState) (res : FetchResult) : AppState :=
  (fetchEffectTrace st res).foldl applyAction st

/-- The URLs of the requests issued in a trace. -/
def requestUrls (tr : List EffectStep) : List String :=
  tr.filterMap fun a =>
    match a with
    | EffectStep.request u => some u
    | _ => none

/-- The toast messages emitted in a trace. -/
def toastMessages (tr : List EffectStep) : List String :=
  tr.filterMap fun a =>
    match a with
    | EffectStep.toastError m => some m
    | _ => none

/-- The `setData` payloads of a trace. -/
def setDataPayloads (tr : List EffectStep) : List (List CoinType) :=
  tr.filterMap fun a =>
    match a with
    | EffectStep.setDataAct coins => some coins
    | _ => none

/-- How many times a trace clears the loading indicator. -/
def loadingClears (tr : List EffectStep) : ℕ :=
  (tr.filter (· = EffectStep.setLoading false)).length

/-- One entry of the price column `filters` array (App.tsx lines 130-163). -/
structure FilterItem where
  text : String
  value : String
deriving DecidableEq

/-- The `filters` array of the price column (App.tsx lines 130-163). -/
def priceFilters : List FilterItem :=
  [⟨"0 - 100", "0 - 100"⟩, ⟨"100 - 200", "100 - 200"⟩, ⟨"200 - 300", "200 - 300"⟩,
   ⟨"300 - 400", "300 - 400"⟩, ⟨"400 - 500", "400 - 500"⟩, ⟨"500 - 600", "500 - 600"⟩,
   ⟨"600 - 700", "600 - 700"⟩, ⟨"> 700", "700"⟩]

/-- The price column `onFilter` (App.tsx lines 166-180): split the bucket
value on " - "; with no (or an empty, hence JS-falsy) max part, test
`current_price >= Number(min)`; otherwise test the inclusive range.
A missing max (JS `undefined`) is modelled as `[]`, which is falsy like
`""`; `Number` is only ever applied on the non-falsy paths. -/
def onFilter (value : String) (record : CoinType) : Bool :=
  let parts := splitCL " - ".data value.data
  let mn : List Char := parts.headD []
  let mx : List Char := (parts.drop 1).headD []
  if mx.isEmpty then
    geNum record.current_price (jsNumberCL mn)
  else
    geNum record.current_price (jsNumberCL mn) && leNum record.current_price (jsNumberCL mx)

/-- `record.sparkline_in_7d.price[0]`. -/
def trendFirst (price : List ℚ) : Option ℚ :=
  price.get? 0

/-- `record.sparkline_in_7d.price[price.length - 1]`. -/
def trendLast (price : List ℚ) : Option ℚ :=
  price.get? (price.length - 1)

/-- The `Line` `stroke` expression (App.tsx lines 204-216): red when the
first sparkline value is strictly greater than the last, green otherwise. -/
def lineStroke (price : List ℚ) : String :=
  if gtOpt (trendFirst price) (trendLast price) then "#d61616" else "#19db39"

/-- Spec-side predicate for C1: the query occurs in the coin's name as a
case-insensitive substring (both sides lowered, a contiguous occurrence). -/
def nameContainsCI (c : CoinType) (q : String) : Prop :=
  ∃ l r, (toLowerStr c.name).data = l ++ (toLowerStr q).data ++ r

/-- The fetched names of the C1 scenario, as coin records (prices and
supplies are irrelevant to the filter and set to 0). -/
def exampleCoins : List CoinType :=
  [⟨"Bitcoin", "", 0, 0, []⟩, ⟨"Ethereum", "", 0, 0, []⟩, ⟨"Bitcoin Cash", "", 0, 0, []⟩]

/-- Spec-side invariant for C10: label and symbol are consistent. -/
def currencyConsistent (c : Currency) : Prop :=
  (c.label = "USD" → c.symbol = "$") ∧ (c.label = "EUR" → c.symbol = "€")

/-- Modelled from the spec: the minimum and the optional maximum of each
displayed price bucket, keyed by the bucket's `value` string. -/
def bucketBounds : List (String × ℚ × Option ℚ) :=
  [("0 - 100", 0, some 100), ("100 - 200", 100, some 200), ("200 - 300", 200, some 300),
   ("300 - 400", 300, some 400), ("400 - 500", 400, some 500), ("500 - 600", 500, some 600),
   ("600 - 700", 600, some 700), ("700", 700, none)]

theorem isPrefixCL_iff (n h : List Char) : isPrefixCL n h = true ↔ ∃ r, h = n ++ r := by
  induction n generalizing h with
  | nil => simp [isPrefixCL]
  | cons a as ih =>
    cases h with
    | nil => simp [isPrefixCL]
    | cons b bs =>
      simp only [isPrefixCL, Bool.and_eq_true, beq_iff_eq, ih, List.cons_append,
        List.cons.injEq]
      constructor
      · rintro ⟨rfl, r, rfl⟩; exact ⟨r, rfl, rfl⟩
      · rintro ⟨r, rfl, rfl⟩; exact ⟨rfl, r, rfl⟩

theorem containsCL_iff (n h : List Char) : containsCL n h = true ↔ ∃ l r, h = l ++ n ++ r := by
  induction h with
  | nil =>
    simp only [containsCL, isPrefixCL_iff]
    constructor
    · rintro ⟨r, hr⟩; exact ⟨[], r, by simpa using hr⟩
    · rintro ⟨l, r, hr⟩
      have h1 := List.append_eq_nil.1 hr.symm
      have h2 := List.append_eq_nil.1 h1.1
      exact ⟨r, by simp [h2.2, h1.2]⟩
  | cons c rest ih =>
    simp only [containsCL, Bool.or_eq_true, isPrefixCL_iff, ih]
    constructor
    · rintro (⟨r, hr⟩ | ⟨l, r, hr⟩)
      · exact ⟨[], r, by simpa using hr⟩
      · exact ⟨c :: l, r, by simp [hr]⟩
    · rintro ⟨l, r, hr⟩
      cases l with
      | nil => exact Or.inl ⟨r, by simpa using hr⟩
      | cons x xs =>
        simp only [List.cons_append, List.cons.injEq] at hr
        exact Or.inr ⟨xs, r, hr.2⟩

/-- C1: the filter stage produces exactly the subsequence of records of `D`
whose name contains the query as a case-insensitive substring, in the
original order; on the names ["Bitcoin", "Ethereum", "Bitcoin Cash"] with
query "bit" it yields exactly ["Bitcoin", "Bitcoin Cash"]. -/
theorem filter_stage_exact :
    (∀ (D : List CoinType) (q : String), (filterCoins D q).Sublist D) ∧
    (∀ (D : List CoinType) (q : String) (c : CoinType),
      c ∈ filterCoins D q ↔ c ∈ D ∧ nameContainsCI c q) ∧
    (filterCoins exampleCoins "bit").map CoinType.name = ["Bitcoin", "Bitcoin Cash"] := by
  refine ⟨fun D q => List.filter_sublist D, fun D q c => ?_, by decide⟩
  rw [filterCoins, List.mem_filter]
  exact and_congr_right fun _ => containsCL_iff _ _

/-- C2: selecting a currency always resets the page to 1, and selecting any
of the sort-order menu keys resets the page to 1, whatever the prior state. -/
theorem selection_resets_page :
    (∀ (st : AppState) (key : String), (handleCurrencyChange st key).pagination.current = 1) ∧
    (∀ (st : AppState) (key : String), key ∈ sortOrderItems.map MenuItem.key →
      (handleSortOrder st key).pagination.current = 1) := by
  refine ⟨fun st key => rfl, fun st key hk => ?_⟩
  have : key = "market_cap_desc" ∨ key = "market_cap_asc" := by
    simpa [sortOrderItems] using hk
  rcases this with rfl | rfl <;> rfl

theorem selection_resets_page_witness :
    (handleCurrencyChange { initState with pagination := ⟨10000, 10, 7⟩ } "EUR €").pagination.current = 1 ∧
    (handleSortOrder { initState with pagination := ⟨10000, 10, 7⟩ } "market_cap_asc").pagination.current = 1 :=
  ⟨selection_resets_page.1 _ "EUR €",
   selection_resets_page.2 _ "market_cap_asc" (by decide)⟩

theorem jsNumberCL_digits (s : List Char) (a : ℕ)
    (h1 : s.isEmpty = false) (h2 : s.all Char.isDigit = true)
    (h3 : natOfDigits s = a) :
    jsNumberCL s = some (a : ℚ) := by
  simp [jsNumberCL, h1, h2, ← h3]

theorem onFilter_with_max (v : String) (mn mx : List Char) (a b : ℚ) (r : CoinType)
    (hs : splitCL " - ".data v.data = [mn, mx]) (hne : mx.isEmpty = false)
    (ha : jsNumberCL mn = some a) (hb : jsNumberCL mx = some b) :
    (onFilter v r = true ↔ a ≤ r.current_price ∧ r.current_price ≤ b) := by
  simp only [onFilter, hs, List.headD_cons, List.drop_succ_cons, List.drop_zero, hne,
    Bool.false_eq_true, if_false, ha, hb, geNum, leNum, Bool.and_eq_true, decide_eq_true_eq]

theorem onFilter_no_max (v : String) (mn : List Char) (a : ℚ) (r : CoinType)
    (hs : splitCL " - ".data v.data = [mn]) (ha : jsNumberCL mn = some a) :
    (onFilter v r = true ↔ a ≤ r.current_price) := by
  simp only [onFilter, hs, List.headD_cons, List.drop_succ_cons, List.drop_zero,
    List.headD_nil, List.isEmpty_nil, if_true, ha, geNum, decide_eq_true_eq]

/-- C3: the "300 - 400" bucket accepts a record iff its price lies in
[300, 400]; the "> 700" bucket (value "700") accepts iff price ≥ 700; and
every bucket of the filter list accepts iff the price is ≥ the bucket
minimum and ≤ the bucket maximum when one exists. -/
theorem bucket_filter_correct :
    (∀ r : CoinType, onFilter "300 - 400" r = true ↔
      300 ≤ r.current_price ∧ r.current_price ≤ 400) ∧
    (∀ r : CoinType, onFilter "700" r = true ↔ 700 ≤ r.current_price) ∧
    bucketBounds.map (fun b => b.1) = priceFilters.map FilterItem.value ∧
    (∀ b ∈ bucketBounds, ∀ r : CoinType,
      onFilter b.1 r = true ↔
        b.2.1 ≤ r.current_price ∧ ∀ M ∈ b.2.2, r.current_price ≤ M) := by
  have key : ∀ (mnS mxS : String) (a b : ℕ) (r : CoinType),
      splitCL " - ".data (mnS ++ " - " ++ mxS).data = [mnS.data, mxS.data] →
      mxS.data.isEmpty = false →
      jsNumberCL mnS.data = some (a : ℚ) → jsNumberCL mxS.data = some (b : ℚ) →
      (onFilter (mnS ++ " - " ++ mxS) r = true ↔
        (a : ℚ) ≤ r.current_price ∧ r.current_price ≤ (b : ℚ)) :=
    fun mnS mxS a b r hs hne ha hb => onFilter_with_max _ _ _ _ _ r hs hne ha hb
  refine ⟨?_, ?_, by decide, ?_⟩
  · intro r
    simpa using key "300" "400" 300 400 r (by decide) (by decide)
      (jsNumberCL_digits _ 300 (by decide) (by decide) (by decide))
      (jsNumberCL_digits _ 400 (by decide) (by decide) (by decide))
  · intro r
    simpa using onFilter_no_max _ "700".data ((700 : ℕ) : ℚ) r (by decide)
      (jsNumberCL_digits _ 700 (by decide) (by decide) (by decide))
  · intro b hb
    fin_cases hb <;> intro r
    · simpa using key "0" "100" 0 100 r (by decide) (by decide)
        (jsNumberCL_digits _ 0 (by decide) (by decide) (by decide))
        (jsNumberCL_digits _ 100 (by decide) (by decide) (by decide))
    · simpa using key "100" "200" 100 200 r (by decide) (by decide)
        (jsNumberCL_digits _ 100 (by decide) (by decide) (by decide))
        (jsNumberCL_digits _ 200 (by decide) (by decide) (by decide))
    · simpa using key "200" "300" 200 300 r (by decide) (by decide)
        (jsNumberCL_digits _ 200 (by decide) (by decide) (by decide))
        (jsNumberCL_digits _ 300 (by decide) (by decide) (by decide))
    · simpa using key "300" "400" 300 400 r (by decide) (by decide)
        (jsNumberCL_digits _ 300 (by decide) (by decide) (by decide))
        (jsNumberCL_digits _ 400 (by decide) (by decide) (by decide))
    · simpa using key "400" "500" 400 500 r (by decide) (by decide)
        (jsNumberCL_digits _ 400 (by decide) (by decide) (by decide))
        (jsNumberCL_digits _ 500 (by decide) (by decide) (by decide))
    · simpa using key "500" "600" 500 600 r (by decide) (by decide)
        (jsNumberCL_digits _ 500 (by decide) (by decide) (by decide))
        (jsNumberCL_digits _ 600 (by decide) (by decide) (by decide))
    · simpa using key "600" "700" 600 700 r (by decide) (by decide)
        (jsNumberCL_digits _ 600 (by decide) (by decide) (by decide))
        (jsNumberCL_digits _ 700 (by decide) (by decide) (by decide))
    · simpa using onFilter_no_max _ "700".data ((700 : ℕ) : ℚ) r (by decide)
        (jsNumberCL_digits _ 700 (by decide) (by decide) (by decide))

theorem bucket_filter_correct_witness :
    onFilter "300 - 400" ⟨"c", "", 350, 0, []⟩ = true ∧
    onFilter "700" ⟨"c", "", 800, 0, []⟩ = true ∧
    onFilter "0 - 100" ⟨"c", "", 50, 0, []⟩ = true :=
  ⟨(bucket_filter_correct.1 _).mpr (by norm_num),
   (bucket_filter_correct.2.1 _).mpr (by norm_num),
   (bucket_filter_correct.2.2.2 ("0 - 100", 0, some 100) (by decide) _).mpr
     (by constructor <;> norm_num)⟩

/-- C4: for a series of length ≥ 2 (first value `a`, last value `b`), the
stroke is green iff `b ≥ a` and red otherwise; in particular ties render
green. -/
theorem sparkline_color_trend (a b : ℚ) (mid s : List ℚ) (hs : s = a :: mid ++ [b]) :
    (lineStroke s = "#19db39" ↔ a ≤ b) ∧ (lineStroke s = "#d61616" ↔ b < a) := by
  have hfirst : trendFirst s = some a := by
    rw [hs, List.cons_append]; rfl
  have hlast : trendLast s = some b := by
    rw [hs, List.cons_append, trendLast]
    have hlen : (a :: (mid ++ [b])).length - 1 = mid.length + 1 := by simp
    rw [hlen, List.get?_cons_succ, List.get?_append_right le_rfl]
    simp
  have hstroke : lineStroke s = if b < a then "#d61616" else "#19db39" := by
    rw [lineStroke, hfirst, hlast]
    simp only [gtOpt]
    by_cases h : b < a <;> simp [h]
  rcases lt_or_le b a with h | h
  · rw [hstroke, if_pos h]
    exact ⟨⟨fun he => absurd he (by decide), fun hle => absurd h (not_lt.2 hle)⟩,
      fun _ => h, fun _ => rfl⟩
  · rw [hstroke, if_neg (not_lt.2 h)]
    exact ⟨⟨fun _ => h, fun _ => rfl⟩,
      fun he => absurd he (by decide), fun hlt => absurd hlt (not_lt.2 h)⟩

theorem sparkline_color_trend_witness : lineStroke [(100 : ℚ), 100] = "#19db39" :=
  (sparkline_color_trend 100 100 [] [100, 100] rfl).1.mpr le_rfl

/-- C9: for a non-empty sparkline series both indexed reads (index 0 and
index length-1) are in bounds (`isSome`); for the empty series both reads
are `none` and the stroke computation falls through to the green branch. -/
theorem trend_access_in_bounds :
    (∀ s : List ℚ, s ≠ [] → (trendFirst s).isSome = true ∧ (trendLast s).isSome = true) ∧
    trendFirst ([] : List ℚ) = none ∧ trendLast ([] : List ℚ) = none ∧
    lineStroke ([] : List ℚ) = "#19db39" := by
  refine ⟨?_, rfl, rfl, rfl⟩
  intro s hs
  cases s with
  | nil => exact absurd rfl hs
  | cons x xs =>
    refine ⟨rfl, ?_⟩
    rw [trendLast]
    have hlen : (x :: xs).length - 1 = xs.length := by simp
    rw [hlen]
    rw [List.get?_eq_get (by simp)]
    rfl

theorem trend_access_in_bounds_witness :
    (trendFirst [(3 : ℚ)]).isSome = true ∧ (trendLast [(3 : ℚ)]).isSome = true :=
  trend_access_in_bounds.1 [3] (by simp)

/-- C5: on a failed fetch the coin collection is unchanged (no `setData` in
the trace), the loading flag ends cleared and is cleared exactly once, the
single toast "Failed to fetch data, try again later" is emitted, and exactly
one request (no retry) was issued. -/
theorem fetch_failure_behavior (st : AppState) :
    (runFetch st FetchResult.failure).data = st.data ∧
    (runFetch st FetchResult.failure).isLoading = false ∧
    loadingClears (fetchEffectTrace st FetchResult.failure) = 1 ∧
    toastMessages (fetchEffectTrace st FetchResult.failure) =
      ["Failed to fetch data, try again later"] ∧
    setDataPayloads (fetchEffectTrace st FetchResult.failure) = [] ∧
    requestUrls (fetchEffectTrace st FetchResult.failure) = [buildUrl st] :=
  ⟨rfl, rfl, rfl, rfl, rfl, rfl⟩

/-- C7: from the initial state (USD, market_cap_desc, page 1, page size 10)
the fetch effect issues exactly one request, whose URL carries exactly those
parameters and the sparkline flag, and a successful response replaces the
whole coin collection in the order returned. -/
theorem initial_fetch_request :
    (∀ res : FetchResult, requestUrls (fetchEffectTrace initState res) =
      ["https://api.coingecko.com/api/v3/coins/markets?vs_currency=usd&order=market_cap_desc&per_page=10&page=1&sparkline=true"]) ∧
    (∀ coins : List CoinType,
      (runFetch initState (FetchResult.success coins)).data = coins) := by
  constructor
  · intro res
    cases res with
    | success coins => rfl
    | failure => rfl
  · intro coins
    rfl

/-- C8: `totalCount` is the hardcoded constant 10000 and is left unchanged
by page/page-size changes, currency changes, sort-order changes, and fetch
completion (success or failure). -/
theorem totalCount_fixed_constant :
    initState.pagination.totalCount = 10000 ∧
    (∀ (st : AppState) (key : String),
      (handleCurrencyChange st key).pagination.totalCount = st.pagination.totalCount) ∧
    (∀ (st : AppState) (key : String),
      (handleSortOrder st key).pagination.totalCount = st.pagination.totalCount) ∧
    (∀ (st : AppState) (cur size : ℕ),
      (paginationOnChange st cur size).pagination.totalCount = st.pagination.totalCount) ∧
    (∀ (st : AppState) (res : FetchResult),
      (runFetch st res).pagination.totalCount = st.pagination.totalCount) := by
  refine ⟨rfl, fun st key => rfl, fun st key => ?_, fun st cur size => rfl, fun st res => ?_⟩
  · rw [handleSortOrder]
    split
    · rfl
    · split <;> rfl
  · cases res with
    | success coins => rfl
    | failure => rfl

/-- C6: with the query cleared to the empty string the table shows the
unfiltered collection `D`, even though the stored filtered set still holds
the (stale) previously computed filter result; the filter effect rewrites
`filteredData` only when the query is non-empty. -/
theorem empty_query_shows_unfiltered (D : List CoinType) (q : String) (hq : q ≠ "") :
    dataSource (filterEffect (setFilterQuery
      (filterEffect (setFilterQuery { initState with data := D } q)) "")) = D ∧
    (filterEffect (setFilterQuery
      (filterEffect (setFilterQuery { initState with data := D } q)) "")).filteredData =
      filterCoins D q ∧
    (∀ st : AppState, jsTruthy st.filterQuery = false → filterEffect st = st) := by
  have hfe : ∀ st : AppState, jsTruthy st.filterQuery = false → filterEffect st = st := by
    intro st h
    rw [filterEffect, h]
    rfl
  have hq1 : q.isEmpty = false := by
    cases h : q.isEmpty
    · rfl
    · exact absurd ((String.isEmpty_iff q).mp h) hq
  refine ⟨?_, ?_, hfe⟩ <;>
    simp [setFilterQuery, filterEffect, dataSource, jsTruthy, hq1,
      show "".isEmpty = true from rfl]

theorem empty_query_shows_unfiltered_witness :
    dataSource (filterEffect (setFilterQuery
      (filterEffect (setFilterQuery { initState with data := exampleCoins } "bit")) "")) =
      exampleCoins :=
  (empty_query_shows_unfiltered exampleCoins "bit" (by decide)).1

theorem currency_fold_consistent (keys : List String) :
    ∀ st : AppState, currencyConsistent st.currency →
      (∀ k ∈ keys, k ∈ currencyItems.map MenuItem.key) →
      currencyConsistent ((keys.foldl handleCurrencyChange st).currency) := by
  induction keys with
  | nil => intro st h _; simpa using h
  | cons k ks ih =>
    intro st _ hk
    rw [List.foldl_cons]
    refine ih _ ?_ fun x hx => hk x (List.mem_cons_of_mem _ hx)
    have hkmem : k = "USD $" ∨ k = "EUR €" := by
      simpa [currencyItems] using hk k (List.mem_cons_self _ _)
    rcases hkmem with rfl | rfl
    · have hc : (handleCurrencyChange st "USD $").currency = ⟨"USD", "$"⟩ := rfl
      rw [hc]
      exact ⟨fun _ => rfl, fun h => absurd h (by decide)⟩
    · have hc : (handleCurrencyChange st "EUR €").currency = ⟨"EUR", "€"⟩ := rfl
      rw [hc]
      exact ⟨fun h => absurd h (by decide), fun _ => rfl⟩

/-- C10: starting from the initial currency {USD, $}, any sequence of
currency selections over the menu keys "USD $" and "EUR €" keeps the label
and symbol consistent (USD pairs with $, EUR with €). -/
theorem currency_label_symbol_consistent (keys : List String)
    (hk : ∀ k ∈ keys, k ∈ currencyItems.map MenuItem.key) :
    currencyConsistent ((keys.foldl handleCurrencyChange initState).currency) :=
  currency_fold_consistent keys initState
    ⟨fun _ => rfl, fun h => absurd h (by decide)⟩ hk

theorem currency_label_symbol_consistent_witness :
    currencyConsistent
      (((["EUR €", "USD $"] : List String).foldl handleCurrencyChange initState).currency) :=
  currency_label_symbol_consistent ["EUR €", "USD $"] (by decide)
